import Mathlib

/-!
Verification development for the CarRent-BinIO repository.

The repository stores customers / cars / rental contracts in flat binary
files: a 128-byte header, a fixed-size open-addressing index region
(16 bytes per slot), and a region of fixed-width records with a free list
threaded through a reserved pad offset of deleted records.

This file shallowly embeds the storage engine of `car_rental_binio.py`
(class `BinTable` and the entity codecs), the independent reimplementation
in `seed_sample_data.py`, and the header reader of `inspect_header.py`.
The file contents are modelled explicitly: the index region is a list of
slots, the record region a list of byte lists, and the header fields are
kept as plain integers (the header's `updated_at` timestamp, which is
refreshed on every write, is not modelled — no claim depends on it).
Python byte strings are lists of naturals; machine integers are Nat / Int
with explicit `% 2^w` at the codec boundary.
-/

namespace CarRent

/-- Tombstone sentinel written into an index slot on delete
(`TOMBSTONE_KEY = 0xFFFFFFFF` in `car_rental_binio.py`). -/
def TOMBSTONE_KEY : Nat := 0xFFFFFFFF

/-- One 16-byte index slot: 4-byte key, 4-byte record index (pad ignored).
Mirrors class `IndexSlot`. -/
structure IndexSlot where
  key : Nat
  rec_index : Nat
deriving DecidableEq, Repr

/-- The all-zero slot written when a table is created. -/
def slot0 : IndexSlot := ⟨0, 0⟩

/-- Static per-table parameters: record size and the pad offset at which
the free-list link is stored (constructor arguments `rsize`, `pad_off`
of `BinTable`). -/
structure TSpec where
  rsize : Nat
  pad_off : Nat
deriving DecidableEq, Repr

/-- In-memory view of one open `BinTable`: the index region, the record
region (each record a byte list), and the mutable header fields that the
engine reads back (counters and the free-list head).  `index_slots` is
the length of `index`. -/
structure TableState where
  index : List IndexSlot
  recs : List (List Nat)
  next_id : Nat
  active_count : Int
  deleted_count : Int
  free_head : Int
deriving DecidableEq, Repr

/-- Errors raised by the engine: `ValueError('duplicate key')`,
`RuntimeError('index full')`, `KeyError('not found')`. -/
inductive BinErr where
  | duplicateKey
  | indexFull
  | notFound
deriving DecidableEq, Repr

instance {ε α : Type} [DecidableEq ε] [DecidableEq α] : DecidableEq (Except ε α) :=
  fun x y =>
    match x, y with
    | .error a, .error b => decidable_of_iff (a = b) (by simp)
    | .ok a, .ok b => decidable_of_iff (a = b) (by simp)
    | .error _, .ok _ => isFalse (fun h => by cases h)
    | .ok _, .error _ => isFalse (fun h => by cases h)

/-- `BinTable._hash`: `key % index_slots`. -/
def hashKey (key n : Nat) : Nat := key % n

/-- Loop body of `BinTable._find_slot_for_insert` (lines 126-138).
`fuel` counts the remaining iterations of `for i in range(index_slots)`,
`i` is the current iteration counter, `ft` the `first_tomb` register
(python uses `-1` for "none"). -/
def insGo (idx : List IndexSlot) (key s : Nat) : Nat → Nat → Option Nat → Except BinErr Nat
  | 0, _, _ => .error .indexFull
  | fuel + 1, i, ft =>
      let j := (s + i) % idx.length
      let sl := idx.getD j slot0
      if sl.key = key then .error .duplicateKey
      else
        let ft' := match ft with
          | some q => some q
          | none => if sl.key = TOMBSTONE_KEY then some j else none
        if sl.key = 0 then .ok (ft'.getD j)
        else insGo idx key s fuel (i + 1) ft'

/-- `BinTable._find_slot_for_insert`. -/
def find_slot_for_insert (idx : List IndexSlot) (key : Nat) : Except BinErr Nat :=
  insGo idx key (hashKey key idx.length) idx.length 0 none

/-- Loop body of `BinTable._lookup` (lines 140-149). -/
def lookGo (idx : List IndexSlot) (key s : Nat) : Nat → Nat → Option Nat
  | 0, _ => none
  | fuel + 1, i =>
      let j := (s + i) % idx.length
      let sl := idx.getD j slot0
      if sl.key = 0 then none
      else if sl.key = key then some sl.rec_index
      else lookGo idx key s fuel (i + 1)

/-- `BinTable._lookup`. -/
def lookup (idx : List IndexSlot) (key : Nat) : Option Nat :=
  lookGo idx key (hashKey key idx.length) idx.length 0

/-- Loop body of `BinTable._slot_of_key` (lines 151-158). -/
def slotGo (idx : List IndexSlot) (key s : Nat) : Nat → Nat → Option Nat
  | 0, _ => none
  | fuel + 1, i =>
      let j := (s + i) % idx.length
      let sl := idx.getD j slot0
      if sl.key = 0 then none
      else if sl.key = key then some j
      else slotGo idx key s fuel (i + 1)

/-- `BinTable._slot_of_key`. -/
def slot_of_key (idx : List IndexSlot) (key : Nat) : Option Nat :=
  slotGo idx key (hashKey key idx.length) idx.length 0

/-- Little-endian 4-byte encoding of an unsigned value
(`struct.pack('<I', v)`; the caller guarantees `v < 2^32`). -/
def encU32 (v : Nat) : List Nat :=
  [v % 256, v / 256 % 256, v / 65536 % 256, v / 16777216 % 256]

/-- Little-endian 4-byte decoding (`struct.unpack('<I', bs)`). -/
def decU32 (bs : List Nat) : Nat :=
  bs.getD 0 0 + 256 * bs.getD 1 0 + 65536 * bs.getD 2 0 + 16777216 * bs.getD 3 0

/-- `struct.pack('<i', v)`: signed 32-bit little-endian, two's complement. -/
def encI32 (v : Int) : List Nat := encU32 (v % 4294967296).toNat

/-- `struct.unpack('<i', bs)`. -/
def decI32 (bs : List Nat) : Int :=
  let m := decU32 bs
  if m < 2147483648 then (m : Int) else (m : Int) - 4294967296

/-- Splice `bs` into `rec` at byte offset `off` (a `seek`+`write` inside a
record; all uses stay within the record's width). -/
def writeAt (rec : List Nat) (off : Nat) (bs : List Nat) : List Nat :=
  rec.take off ++ bs ++ rec.drop (off + bs.length)

/-- Read `len` bytes of `rec` starting at offset `off`. -/
def readAt (rec : List Nat) (off len : Nat) : List Nat :=
  (rec.drop off).take len

/-- `BinTable._write_raw`: store a record at position `i`.  The python
code seeks to the record offset and writes; for `i` equal to the current
record count this appends one record at the end of the file (the only way
the engine ever grows the file). -/
def write_raw (recs : List (List Nat)) (i : Nat) (data : List Nat) : List (List Nat) :=
  if i < recs.length then recs.set i data else recs ++ [data]

/-- `BinTable._write_next_free`: overwrite the 4 pad bytes at `pad_off`
of record `ri` with the signed link `next_free`. -/
def write_next_free (sp : TSpec) (st : TableState) (ri : Nat) (next_free : Int) : TableState :=
  { st with recs := st.recs.set ri (writeAt (st.recs.getD ri []) sp.pad_off (encI32 next_free)) }

/-- Read the free-list link back out of record `ri`'s pad bytes
(the `struct.unpack('<i', ...)` inside `_alloc_rec_index`). -/
def read_next_free (sp : TSpec) (st : TableState) (ri : Nat) : Int :=
  decI32 (readAt (st.recs.getD ri []) sp.pad_off 4)

/-- `BinTable._alloc_rec_index` (lines 179-186): pop the free list if
nonempty, else return the current record count.  In every reachable state
`free_head` is `-1` or a valid record position, so `Int.toNat` is exact. -/
def alloc_rec_index (sp : TSpec) (st : TableState) : TableState × Nat :=
  if st.free_head ≠ -1 then
    let i := st.free_head.toNat
    ({ st with free_head := read_next_free sp st i }, i)
  else (st, st.recs.length)

/-- `BinTable.add_record` (lines 188-191).  The state component is the
file/header state after the call even when the call raises: the python
exception propagates after the record bytes are written and after the
in-memory `free_head` was already popped by `_alloc_rec_index`. -/
def add_record (sp : TSpec) (st : TableState) (key : Nat) (packed : List Nat) :
    TableState × Except BinErr Nat :=
  let a := alloc_rec_index sp st
  let st2 := { a.1 with recs := write_raw a.1.recs a.2 packed }
  match find_slot_for_insert st2.index key with
  | .error e => (st2, .error e)
  | .ok j =>
      let st3 := { st2 with index := st2.index.set j ⟨key, a.2⟩ }
      ({ st3 with active_count := st3.active_count + 1 }, .ok a.2)

/-- `BinTable.read_record` (lines 193-194). -/
def read_record (st : TableState) (key : Nat) : Option (List Nat) :=
  match lookup st.index key with
  | none => none
  | some ri => some (st.recs.getD ri [])

/-- `BinTable.update_record` (lines 196-199). -/
def update_record (st : TableState) (key : Nat) (packed : List Nat) :
    TableState × Except BinErr Unit :=
  match lookup st.index key with
  | none => (st, .error .notFound)
  | some ri => ({ st with recs := st.recs.set ri packed }, .ok ())

/-- `rec[0] = 0`: flip the record's active flag to deleted. -/
def setFlag0 (rec : List Nat) : List Nat := writeAt rec 0 [0]

/-- `BinTable.delete_record` (lines 201-213): mark the record inactive,
push its position onto the free list, tombstone its index slot, adjust
the counters. -/
def delete_record (sp : TSpec) (st : TableState) (key : Nat) :
    TableState × Except BinErr Unit :=
  match lookup st.index key with
  | none => (st, .error .notFound)
  | some ri =>
      let st1 := { st with recs := st.recs.set ri (setFlag0 (st.recs.getD ri [])) }
      let st2 := write_next_free sp st1 ri st1.free_head
      let st3 := { st2 with free_head := (ri : Int) }
      let st4 := match slot_of_key st3.index key with
        | some sj => { st3 with index := st3.index.set sj ⟨TOMBSTONE_KEY, 0⟩ }
        | none => st3
      ({ st4 with active_count := st4.active_count - 1,
                  deleted_count := st4.deleted_count + 1 }, .ok ())

/-- The state written by `BinTable.open` for a fresh file: header
`Header.new` (`next_id = 1`, counters `0`, `free_head = -1`) and `slots`
empty index slots; the record region is empty. -/
def initTable (slots : Nat) : TableState :=
  { index := List.replicate slots slot0
    recs := []
    next_id := 1
    active_count := 0
    deleted_count := 0
    free_head := -1 }

/-- `BinTable.next_id`. -/
def table_next_id (st : TableState) : TableState × Nat :=
  ({ st with next_id := st.next_id + 1 }, st.next_id)

/-!
The standalone seeding tool `seed_sample_data.py` reimplements `BinTable`.
Its `open`, `_hash`, `_lookup`, `_alloc`, `_read_raw`, `_write_raw`,
`_write_next_free`, `read_record` and `update_record` are textually
identical to the main engine's and are shared above; its insert probe
`_find_slot` (lines 138-145) and `add_record` (lines 181-186) differ and
are embedded separately below.
-/

/-- Loop body of `seed_sample_data.BinTable._find_slot`: returns the first
slot whose key is `0` (empty) or equal to `key`, together with the
occupying slot in the duplicate case; raises index-full after a full scan.
Unlike the main engine's probe it never tracks tombstones. -/
def seedFindGo (idx : List IndexSlot) (key s : Nat) :
    Nat → Nat → Except BinErr (Nat × Option IndexSlot)
  | 0, _ => .error .indexFull
  | fuel + 1, i =>
      let j := (s + i) % idx.length
      let sl := idx.getD j slot0
      if sl.key = 0 ∨ sl.key = key then
        .ok (j, if sl.key = 0 then none else some sl)
      else seedFindGo idx key s fuel (i + 1)

/-- `seed_sample_data.BinTable._find_slot`. -/
def seed_find_slot (idx : List IndexSlot) (key : Nat) :
    Except BinErr (Nat × Option IndexSlot) :=
  seedFindGo idx key (hashKey key idx.length) idx.length 0

/-- `seed_sample_data.BinTable.add_record` (lines 181-186). -/
def seed_add_record (sp : TSpec) (st : TableState) (key : Nat) (packed : List Nat) :
    TableState × Except BinErr Nat :=
  let a := alloc_rec_index sp st
  let st2 := { a.1 with recs := write_raw a.1.recs a.2 packed }
  match seed_find_slot st2.index key with
  | .error e => (st2, .error e)
  | .ok (_, some _) => (st2, .error .duplicateKey)
  | .ok (j, none) =>
      let st3 := { st2 with index := st2.index.set j ⟨key, a.2⟩ }
      ({ st3 with active_count := st3.active_count + 1 }, .ok a.2)

/-- View a `_find_slot` result of the seeding tool through the eyes of the
main engine's `add_record` caller: an occupied slot means the duplicate-key
error, an unoccupied slot is the insertion position. -/
def seedToMain (r : Except BinErr (Nat × Option IndexSlot)) : Except BinErr Nat :=
  match r with
  | .error e => .error e
  | .ok (_, some _) => .error .duplicateKey
  | .ok (j, none) => .ok j

/-- Cars table parameters (`CARS_SIZE = 128`, `CARS_PAD = 60`). -/
def carsSpec : TSpec := ⟨128, 60⟩

/-- Customers table parameters (`CUST_SIZE = 128`, `CUST_PAD = 83`). -/
def custSpec : TSpec := ⟨128, 83⟩

/-- Contracts table parameters (`CONT_SIZE = 64`, `CONT_PAD = 26`). -/
def contSpec : TSpec := ⟨64, 26⟩

/-!
Layout codec.  Text fields are modelled at the byte level: a field value
is the UTF-8 byte sequence of the python string (encoding/decoding between
`str` and valid UTF-8 bytes is the identity on representable values and is
not re-verified here).
-/

/-- `fit(s, n)`: truncate to `n` bytes and right-pad with zero bytes
(`s.encode('utf-8','ignore')[:n].ljust(n, b'\x00')`). -/
def fit (s : List Nat) (n : Nat) : List Nat :=
  s.take n ++ List.replicate (n - s.length) 0

/-- `b.rstrip(b'\x00')`: strip trailing zero bytes (the `dec` lambda used
by every `unpack`). -/
def rstrip0 (s : List Nat) : List Nat :=
  (s.reverse.dropWhile (fun b => b == 0)).reverse

/-- `struct.pack('<B', v)`. -/
def encU8 (v : Nat) : List Nat := [v % 256]

/-- `struct.unpack('<B', bs)`. -/
def decU8 (bs : List Nat) : Nat := bs.getD 0 0

/-- `struct.pack('<H', v)`. -/
def encU16 (v : Nat) : List Nat := [v % 256, v / 256 % 256]

/-- `struct.unpack('<H', bs)`. -/
def decU16 (bs : List Nat) : Nat := bs.getD 0 0 + 256 * bs.getD 1 0

/-- Big-endian 2-byte encoding (`struct.pack('>H', v)`). -/
def encU16be (v : Nat) : List Nat := [v / 256 % 256, v % 256]

/-- Big-endian 2-byte decoding. -/
def decU16be (bs : List Nat) : Nat := 256 * bs.getD 0 0 + bs.getD 1 0

/-- Big-endian 4-byte encoding (`struct.pack('>I', v)`). -/
def encU32be (v : Nat) : List Nat :=
  [v / 16777216 % 256, v / 65536 % 256, v / 256 % 256, v % 256]

/-- Big-endian 4-byte decoding. -/
def decU32be (bs : List Nat) : Nat :=
  16777216 * bs.getD 0 0 + 65536 * bs.getD 1 0 + 256 * bs.getD 2 0 + bs.getD 3 0

/-- `struct.pack('>i', v)`. -/
def encI32be (v : Int) : List Nat := encU32be (v % 4294967296).toNat

/-- `struct.unpack('>i', bs)`. -/
def decI32be (bs : List Nat) : Int :=
  let m := decU32be bs
  if m < 2147483648 then (m : Int) else (m : Int) - 4294967296

/-- A customer record value
(`CUST_FMT = '<B I 13s 50s 10s I B 45x'`, 128 bytes). -/
structure CustomerRec where
  flag : Nat
  cus_id : Nat
  id_card : List Nat
  name : List Nat
  phone : List Nat
  birth_ymd : Nat
  gender : Nat
deriving DecidableEq, Repr

/-- `Customers.pack` (line 231-232). -/
def cust_pack (r : CustomerRec) : List Nat :=
  encU8 r.flag ++ encU32 r.cus_id ++ fit r.id_card 13 ++ fit r.name 50 ++
    fit r.phone 10 ++ encU32 r.birth_ymd ++ encU8 r.gender ++ List.replicate 45 0

/-- `Customers.unpack` (lines 233-236): field offsets
0,1,5,18,68,78,82 of the 128-byte buffer; text fields are zero-stripped. -/
def cust_unpack (raw : List Nat) : CustomerRec :=
  { flag := decU8 (readAt raw 0 1)
    cus_id := decU32 (readAt raw 1 4)
    id_card := rstrip0 (readAt raw 5 13)
    name := rstrip0 (readAt raw 18 50)
    phone := rstrip0 (readAt raw 68 10)
    birth_ymd := decU32 (readAt raw 78 4)
    gender := decU8 (readAt raw 82 1) }

/-- A car record value (`CARS_FMT = '<B I 12s 12s 16s H I I B I 68x'`,
128 bytes). -/
structure CarRec where
  flag : Nat
  car_id : Nat
  plate : List Nat
  brand : List Nat
  model : List Nat
  year : Nat
  rate_cents : Nat
  odo_km : Nat
  status : Nat
  updated_at : Nat
deriving DecidableEq, Repr

/-- `Cars.pack` (lines 241-242). -/
def cars_pack (r : CarRec) : List Nat :=
  encU8 r.flag ++ encU32 r.car_id ++ fit r.plate 12 ++ fit r.brand 12 ++
    fit r.model 16 ++ encU16 r.year ++ encU32 r.rate_cents ++ encU32 r.odo_km ++
    encU8 r.status ++ encU32 r.updated_at ++ List.replicate 68 0

/-- `Cars.unpack` (lines 243-246): offsets 0,1,5,17,29,45,47,51,55,56. -/
def cars_unpack (raw : List Nat) : CarRec :=
  { flag := decU8 (readAt raw 0 1)
    car_id := decU32 (readAt raw 1 4)
    plate := rstrip0 (readAt raw 5 12)
    brand := rstrip0 (readAt raw 17 12)
    model := rstrip0 (readAt raw 29 16)
    year := decU16 (readAt raw 45 2)
    rate_cents := decU32 (readAt raw 47 4)
    odo_km := decU32 (readAt raw 51 4)
    status := decU8 (readAt raw 55 1)
    updated_at := decU32 (readAt raw 56 4) }

/-- A contract record value (`CONT_FMT = '<B I I I I I I B 38x'`,
64 bytes). -/
structure ContractRec where
  flag : Nat
  rent_id : Nat
  cus_id : Nat
  car_id : Nat
  rent_ymd : Nat
  return_ymd : Nat
  total_cents : Nat
  returned : Nat
deriving DecidableEq, Repr

/-- `Contracts.pack` (lines 251-252). -/
def cont_pack (r : ContractRec) : List Nat :=
  encU8 r.flag ++ encU32 r.rent_id ++ encU32 r.cus_id ++ encU32 r.car_id ++
    encU32 r.rent_ymd ++ encU32 r.return_ymd ++ encU32 r.total_cents ++
    encU8 r.returned ++ List.replicate 38 0

/-- `Contracts.unpack` (lines 253-255): offsets 0,1,5,9,13,17,21,25. -/
def cont_unpack (raw : List Nat) : ContractRec :=
  { flag := decU8 (readAt raw 0 1)
    rent_id := decU32 (readAt raw 1 4)
    cus_id := decU32 (readAt raw 5 4)
    car_id := decU32 (readAt raw 9 4)
    rent_ymd := decU32 (readAt raw 13 4)
    return_ymd := decU32 (readAt raw 17 4)
    total_cents := decU32 (readAt raw 21 4)
    returned := decU8 (readAt raw 25 1) }

/-- Representability of a text field of declared width `n`: the UTF-8
bytes fit the width and carry no trailing zero byte. -/
def TextOk (s : List Nat) (n : Nat) : Prop :=
  s.length ≤ n ∧ s.getLast? ≠ some 0

instance (s : List Nat) (n : Nat) : Decidable (TextOk s n) := by
  unfold TextOk; infer_instance

/-- Representable customer values. -/
def CustOk (r : CustomerRec) : Prop :=
  r.flag < 256 ∧ r.cus_id < 4294967296 ∧ TextOk r.id_card 13 ∧
    TextOk r.name 50 ∧ TextOk r.phone 10 ∧ r.birth_ymd < 4294967296 ∧
    r.gender < 256

instance (r : CustomerRec) : Decidable (CustOk r) := by
  unfold CustOk; infer_instance

/-- Representable car values. -/
def CarOk (r : CarRec) : Prop :=
  r.flag < 256 ∧ r.car_id < 4294967296 ∧ TextOk r.plate 12 ∧
    TextOk r.brand 12 ∧ TextOk r.model 16 ∧ r.year < 65536 ∧
    r.rate_cents < 4294967296 ∧ r.odo_km < 4294967296 ∧ r.status < 256 ∧
    r.updated_at < 4294967296

instance (r : CarRec) : Decidable (CarOk r) := by
  unfold CarOk; infer_instance

/-- Representable contract values. -/
def ContOk (r : ContractRec) : Prop :=
  r.flag < 256 ∧ r.rent_id < 4294967296 ∧ r.cus_id < 4294967296 ∧
    r.car_id < 4294967296 ∧ r.rent_ymd < 4294967296 ∧
    r.return_ymd < 4294967296 ∧ r.total_cents < 4294967296 ∧ r.returned < 256

instance (r : ContractRec) : Decidable (ContOk r) := by
  unfold ContOk; infer_instance

/-!
Header codec and the two header-reading paths (`BinTable.open` in the
engine, `read_header` in `inspect_header.py`).
-/

/-- The decoded 128-byte header
(`HEADER_FMT = '4s B B H I I I I I i I 92x'`). -/
structure HeaderRec where
  magic : List Nat
  version : Nat
  endian : Nat
  record_size : Nat
  created_at : Nat
  updated_at : Nat
  next_id : Nat
  active_count : Nat
  deleted_count : Nat
  free_head : Int
  index_slots : Nat
deriving DecidableEq, Repr

/-- `Header.pack` with the little-endian format string
(offsets 0,4,5,6,8,12,16,20,24,28,32, then 92 pad bytes). -/
def header_pack_le (h : HeaderRec) : List Nat :=
  fit h.magic 4 ++ encU8 h.version ++ encU8 h.endian ++ encU16 h.record_size ++
    encU32 h.created_at ++ encU32 h.updated_at ++ encU32 h.next_id ++
    encU32 h.active_count ++ encU32 h.deleted_count ++ encI32 h.free_head ++
    encU32 h.index_slots ++ List.replicate 92 0

/-- `struct.pack('>' + BASE_FMT, ...)`: the same layout with every
multi-byte integer big-endian (`4s`, `B` are endianness-invariant). -/
def header_pack_be (h : HeaderRec) : List Nat :=
  fit h.magic 4 ++ encU8 h.version ++ encU8 h.endian ++ encU16be h.record_size ++
    encU32be h.created_at ++ encU32be h.updated_at ++ encU32be h.next_id ++
    encU32be h.active_count ++ encU32be h.deleted_count ++ encI32be h.free_head ++
    encU32be h.index_slots ++ List.replicate 92 0

/-- `Header.unpack(raw, '<')`. -/
def header_unpack_le (raw : List Nat) : HeaderRec :=
  { magic := readAt raw 0 4
    version := decU8 (readAt raw 4 1)
    endian := decU8 (readAt raw 5 1)
    record_size := decU16 (readAt raw 6 2)
    created_at := decU32 (readAt raw 8 4)
    updated_at := decU32 (readAt raw 12 4)
    next_id := decU32 (readAt raw 16 4)
    active_count := decU32 (readAt raw 20 4)
    deleted_count := decU32 (readAt raw 24 4)
    free_head := decI32 (readAt raw 28 4)
    index_slots := decU32 (readAt raw 32 4) }

/-- `Header.unpack(raw, '>')`. -/
def header_unpack_be (raw : List Nat) : HeaderRec :=
  { magic := readAt raw 0 4
    version := decU8 (readAt raw 4 1)
    endian := decU8 (readAt raw 5 1)
    record_size := decU16be (readAt raw 6 2)
    created_at := decU32be (readAt raw 8 4)
    updated_at := decU32be (readAt raw 12 4)
    next_id := decU32be (readAt raw 16 4)
    active_count := decU32be (readAt raw 20 4)
    deleted_count := decU32be (readAt raw 24 4)
    free_head := decI32be (readAt raw 28 4)
    index_slots := decU32be (readAt raw 32 4) }

/-- Representable header values: every field inside its fixed-width
range and a 4-byte magic. -/
def HeaderOk (h : HeaderRec) : Prop :=
  h.magic.length = 4 ∧ h.version < 256 ∧ h.endian < 256 ∧ h.record_size < 65536 ∧
    h.created_at < 4294967296 ∧ h.updated_at < 4294967296 ∧
    h.next_id < 4294967296 ∧ h.active_count < 4294967296 ∧
    h.deleted_count < 4294967296 ∧ -2147483648 ≤ h.free_head ∧
    h.free_head < 2147483648 ∧ h.index_slots < 4294967296

instance (h : HeaderRec) : Decidable (HeaderOk h) := by
  unfold HeaderOk; infer_instance

/-- Decode step of `inspect_header.read_header` (lines 65-81): decode
little-endian first, re-decode big-endian exactly when the decoded endian
flag equals 1. -/
def read_header (raw : List Nat) : HeaderRec :=
  let h := header_unpack_le raw
  if h.endian = 1 then header_unpack_be raw else h

/-- Format-mismatch error of `BinTable.open`. -/
inductive OpenErr where
  | badFormat
deriving DecidableEq, Repr

/-- The existing-file branch of `BinTable.open` (lines 104-107): decode
the header with the fixed little-endian format and reject when `magic` or
`record_size` mismatch the engine instance; no big-endian retry exists. -/
def bintable_open_existing (magic : List Nat) (rsize : Nat) (raw : List Nat) :
    Except OpenErr HeaderRec :=
  let h := header_unpack_le raw
  if h.magic ≠ magic ∨ h.record_size ≠ rsize then .error .badFormat else .ok h

/-!
The CLI operation `App.return_car` (lines 373-397) for claim C10.
-/

/-- Outcomes of `App.return_car` after its two inputs parsed. -/
inductive RetErr where
  | contractNotFound
  | alreadyClosed
  | badDate
  | unboundLocalCar
deriving DecidableEq, Repr

/-- `App.return_car` after input parsing, acting on the contracts and cars
table states.  Line 384 reads `car['status']` but the local variable `car`
is first assigned only at line 391, so every execution that passes the
three guards raises `UnboundLocalError` before touching either table;
this is modelled as the `unboundLocalCar` error with both states
unchanged. -/
def return_car (cst carst : TableState) (rid ret : Nat) :
    (TableState × TableState) × Except RetErr Unit :=
  match read_record cst rid with
  | none => ((cst, carst), .error .contractNotFound)
  | some raw =>
      let r := cont_unpack raw
      if r.returned = 1 then ((cst, carst), .error .alreadyClosed)
      else if ret < r.rent_ymd then ((cst, carst), .error .badDate)
      else ((cst, carst), .error .unboundLocalCar)

/-!
Index invariants for claim C4, and reachability by successful engine
calls.
-/

/-- A slot holding a live entry: its key is neither the empty sentinel
nor the tombstone sentinel. -/
def live (sl : IndexSlot) : Prop := sl.key ≠ 0 ∧ sl.key ≠ TOMBSTONE_KEY

instance (sl : IndexSlot) : Decidable (live sl) := by
  unfold live; infer_instance

/-- Key stored at probe distance `u` from start position `s`. -/
def probeKeyAt (idx : List IndexSlot) (s u : Nat) : Nat :=
  (idx.getD ((s + u) % idx.length) slot0).key

/-- Slot `j` can be reached by the lookup probe for its own key: it lies
at some probe distance `t` from the key's hash position and no slot
strictly before it on the probe path is empty. -/
def Findable (idx : List IndexSlot) (j : Nat) : Prop :=
  ∃ t, t < idx.length ∧
    j = (hashKey (idx.getD j slot0).key idx.length + t) % idx.length ∧
    ∀ u, u < t → probeKeyAt idx (hashKey (idx.getD j slot0).key idx.length) u ≠ 0

/-- No two distinct live index slots hold the same key. -/
def NoDupLive (idx : List IndexSlot) : Prop :=
  ∀ i, i < idx.length → ∀ j, j < idx.length → i ≠ j →
    live (idx.getD i slot0) → live (idx.getD j slot0) →
    (idx.getD i slot0).key ≠ (idx.getD j slot0).key

instance (idx : List IndexSlot) : Decidable (NoDupLive idx) := by
  unfold NoDupLive
  exact Nat.decidableBallLT _ _

/-- The index invariant maintained by the engine: every live slot is
findable by probing from its key's hash position, and live keys are
pairwise distinct. -/
def IndexInv (idx : List IndexSlot) : Prop :=
  (∀ j, j < idx.length → live (idx.getD j slot0) → Findable idx j) ∧ NoDupLive idx

/-- States reachable from a freshly created table by successful
`add_record` / `delete_record` calls. -/
inductive Reachable (sp : TSpec) (slots : Nat) : TableState → Prop where
  | init : Reachable sp slots (initTable slots)
  | add (st : TableState) (key : Nat) (packed : List Nat) (i : Nat) :
      Reachable sp slots st → (add_record sp st key packed).2 = .ok i →
      Reachable sp slots (add_record sp st key packed).1
  | del (st : TableState) (key : Nat) :
      Reachable sp slots st → (delete_record sp st key).2 = .ok () →
      Reachable sp slots (delete_record sp st key).1

/-!
Concrete scenario states used by the closed theorems and witnesses.
-/

/-- A record buffer of `n` bytes, all equal to `v`. -/
def recBytes (n v : Nat) : List Nat := List.replicate n v

/-- A small table geometry (8-byte records, free link at pad offset 4)
used for witness states; `BinTable` accepts arbitrary `rsize`/`pad_off`. -/
def tinySpec : TSpec := ⟨8, 4⟩

/-- Cars table of capacity 4 after adding keys 1, 2, 3. -/
def carsAdd123 : TableState :=
  (add_record carsSpec
    (add_record carsSpec
      (add_record carsSpec (initTable 4) 1 (recBytes 128 1)).1
      2 (recBytes 128 2)).1
    3 (recBytes 128 3)).1

/-- ... after additionally adding key 4 (index completely full). -/
def carsAdd1234 : TableState :=
  (add_record carsSpec carsAdd123 4 (recBytes 128 4)).1

/-- Full cars table after deleting key 2: four nonempty slots, one of
them a tombstone, no empty slot. -/
def carsFullTomb : TableState := (delete_record carsSpec carsAdd1234 2).1

/-- Cars table `{1, 2, 3}` after deleting key 2: a tombstone in slot 2
and one empty slot (slot 0). -/
def carsTomb2 : TableState := (delete_record carsSpec carsAdd123 2).1

/-- Tiny table after adding key 1 (record 0 at slot 1). -/
def tinyAdd1 : TableState :=
  (add_record tinySpec (initTable 4) 1 (recBytes 8 1)).1

/-- Tiny table after adding colliding keys 1 and 5
(both hash to slot 1 mod 4; key 5 lands in slot 2, record 1). -/
def tinyAdd15 : TableState :=
  (add_record tinySpec tinyAdd1 5 (recBytes 8 5)).1

/-- Tiny table `{1, 2}`: key 1 in record 0, key 2 in record 1. -/
def tinyAdd12 : TableState :=
  (add_record tinySpec tinyAdd1 2 (recBytes 8 2)).1

/-- ... after deleting record A (key 1, record 0). -/
def tinyDelA : TableState := (delete_record tinySpec tinyAdd12 1).1

/-- ... after then deleting record B (key 2, record 1): the free list is
`1 → 0`. -/
def tinyDelAB : TableState := (delete_record tinySpec tinyDelA 2).1

/-- Customers table (1024 index slots) after adding key 1. -/
def custAdd1 : TableState :=
  (add_record custSpec (initTable 1024) 1 (recBytes 128 7)).1

/-- ... after adding key 1023 (record 1, slot 1023). -/
def custAdd1x1023 : TableState :=
  (add_record custSpec custAdd1 1023 (recBytes 128 8)).1

/-- ... after deleting key 1023: slot 1023 — the hash slot of
`0xFFFFFFFF` — holds a tombstone whose `rec_index` field is 0. -/
def custTomb1023 : TableState :=
  (delete_record custSpec custAdd1x1023 1023).1

/-- Concrete representable customer record. -/
def custW : CustomerRec :=
  ⟨1, 7, [49, 50, 51], [65, 66, 67], [48, 56, 49], 19900101, 2⟩

/-- Concrete representable car record (text fields at maximum width). -/
def carW : CarRec :=
  ⟨1, 3, recBytes 12 84, recBytes 12 72, recBytes 16 86, 2020, 120000, 50000, 1,
    1700000000⟩

/-- Concrete representable contract record. -/
def contW : ContractRec := ⟨1, 9, 7, 3, 20250101, 0, 0, 0⟩

/-- A CARS header written big-endian with its endian flag set to 1. -/
def hdrBE : HeaderRec := ⟨[67, 65, 82, 83], 1, 1, 128, 100, 200, 1, 0, 0, -1, 1024⟩

/-- A CUST header written little-endian (the flag value the code always
stores). -/
def hdrLE : HeaderRec := ⟨[67, 85, 83, 84], 1, 0, 128, 100, 200, 5, 2, 1, -1, 1024⟩

/-- Contracts table containing the single open contract `contW`
(rent id 9). -/
def contTable9 : TableState :=
  (add_record contSpec (initTable 8) 9 (cont_pack contW)).1

/-!
Helper lemmas shared by the claim theorems.
-/

theorem getD_set_self {α : Type} (l : List α) (i : Nat) (a d : α) (h : i < l.length) :
    (l.set i a).getD i d = a := by
  simp [List.getD, List.getElem?_set_self', h]

theorem getD_set_ne {α : Type} (l : List α) {i j : Nat} (a d : α) (h : i ≠ j) :
    (l.set i a).getD j d = l.getD j d := by
  simp [List.getD, List.getElem?_set_ne h]

theorem write_raw_getD_self (recs : List (List Nat)) (i : Nat) (data : List Nat)
    (h : i ≤ recs.length) : (write_raw recs i data).getD i [] = data := by
  unfold write_raw
  rcases Nat.lt_or_ge i recs.length with hlt | hge
  · simp only [if_pos hlt]
    exact getD_set_self _ _ _ _ hlt
  · have hi : i = recs.length := Nat.le_antisymm h hge
    subst hi
    simp [List.getD]

theorem alloc_index_eq (sp : TSpec) (st : TableState) :
    (alloc_rec_index sp st).1.index = st.index := by
  unfold alloc_rec_index; split <;> rfl

theorem alloc_recs_eq (sp : TSpec) (st : TableState) :
    (alloc_rec_index sp st).1.recs = st.recs := by
  unfold alloc_rec_index; split <;> rfl

theorem alloc_active_eq (sp : TSpec) (st : TableState) :
    (alloc_rec_index sp st).1.active_count = st.active_count := by
  unfold alloc_rec_index; split <;> rfl

theorem alloc_deleted_eq (sp : TSpec) (st : TableState) :
    (alloc_rec_index sp st).1.deleted_count = st.deleted_count := by
  unfold alloc_rec_index; split <;> rfl

theorem alloc_next_id_eq (sp : TSpec) (st : TableState) :
    (alloc_rec_index sp st).1.next_id = st.next_id := by
  unfold alloc_rec_index; split <;> rfl

theorem alloc_of_empty_free (sp : TSpec) (st : TableState) (h : st.free_head = -1) :
    alloc_rec_index sp st = (st, st.recs.length) := by
  unfold alloc_rec_index; simp [h]

/-!
Shared codec lemmas: fixed-width integer round trips, text-field
padding/stripping, and byte-level splice/extract facts.
-/

theorem encU8_length (v : Nat) : (encU8 v).length = 1 := rfl

theorem encU16_length (v : Nat) : (encU16 v).length = 2 := rfl

theorem encU32_length (v : Nat) : (encU32 v).length = 4 := rfl

theorem length_fit (s : List Nat) (n : Nat) : (fit s n).length = n := by
  simp [fit]
  omega

theorem decU8_encU8 (v : Nat) (h : v < 256) : decU8 (encU8 v) = v := by
  simp [encU8, decU8, List.getD, Nat.mod_eq_of_lt h]

theorem decU16_encU16 (v : Nat) (h : v < 65536) : decU16 (encU16 v) = v := by
  simp [encU16, decU16, List.getD]
  omega

theorem decU32_encU32 (v : Nat) (h : v < 4294967296) : decU32 (encU32 v) = v := by
  simp [encU32, decU32, List.getD]
  omega

theorem readAt_append (xs ys : List Nat) (off len : Nat) (h : xs.length ≤ off) :
    readAt (xs ++ ys) off len = readAt ys (off - xs.length) len := by
  unfold readAt
  rw [List.drop_append_eq_append_drop, List.drop_eq_nil_of_le h]
  simp

theorem readAt_here (xs ys : List Nat) (len : Nat) (h : xs.length = len) :
    readAt (xs ++ ys) 0 len = xs := by
  unfold readAt
  rw [List.drop_zero, ← h, List.take_left]

theorem rstrip0_replicate_append (k : Nat) (t : List Nat) :
    (List.replicate k 0 ++ t).dropWhile (fun b => b == 0) =
      t.dropWhile (fun b => b == 0) := by
  induction k with
  | zero => rfl
  | succ k ih =>
      rw [List.replicate_succ, List.cons_append, List.dropWhile_cons,
        if_pos (by decide)]
      exact ih

theorem rstrip0_fit (s : List Nat) (n : Nat) (h1 : s.length ≤ n)
    (h2 : s.getLast? ≠ some 0) : rstrip0 (fit s n) = s := by
  unfold rstrip0 fit
  rw [List.take_of_length_le h1]
  rw [List.reverse_append, List.reverse_replicate, rstrip0_replicate_append]
  cases hr : s.reverse with
  | nil =>
      have hs : s = [] := by simpa using congrArg List.reverse hr
      simp [hs]
  | cons a t =>
      have hhead : s.getLast? = some a := by
        rw [← List.head?_reverse, hr]
        rfl
      have ha : ¬(a == 0) = true := by
        intro hb
        apply h2
        rw [hhead]
        simp at hb
        rw [hb]
      rw [List.dropWhile_cons, if_neg ha, ← hr, List.reverse_reverse]

theorem encU16be_length (v : Nat) : (encU16be v).length = 2 := rfl

theorem encU32be_length (v : Nat) : (encU32be v).length = 4 := rfl

theorem encI32_length (v : Int) : (encI32 v).length = 4 := rfl

theorem encI32be_length (v : Int) : (encI32be v).length = 4 := rfl

theorem decU16be_encU16be (v : Nat) (h : v < 65536) : decU16be (encU16be v) = v := by
  simp [encU16be, decU16be, List.getD]
  omega

theorem decU32be_encU32be (v : Nat) (h : v < 4294967296) : decU32be (encU32be v) = v := by
  simp [encU32be, decU32be, List.getD]
  omega

theorem decI32_encI32 (v : Int) (h1 : -2147483648 ≤ v) (h2 : v < 2147483648) :
    decI32 (encI32 v) = v := by
  have hm : decU32 (encU32 (v % 4294967296).toNat) = (v % 4294967296).toNat :=
    decU32_encU32 _ (by omega)
  simp only [decI32, encI32, hm]
  split <;> omega

theorem decI32be_encI32be (v : Int) (h1 : -2147483648 ≤ v) (h2 : v < 2147483648) :
    decI32be (encI32be v) = v := by
  have hm : decU32be (encU32be (v % 4294967296).toNat) = (v % 4294967296).toNat :=
    decU32be_encU32be _ (by omega)
  simp only [decI32be, encI32be, hm]
  split <;> omega

theorem fit_of_length_eq (s : List Nat) (n : Nat) (h : s.length = n) : fit s n = s := by
  simp [fit, h, List.take_of_length_le (Nat.le_of_eq h)]

theorem readAt_writeAt (rec : List Nat) (off : Nat) (bs : List Nat)
    (h : off ≤ rec.length) :
    readAt (writeAt rec off bs) off bs.length = bs := by
  unfold readAt writeAt
  have hl : (rec.take off).length = off := by simp [h]
  have h1 : (rec.take off).drop off = [] := by
    rw [List.drop_eq_nil_of_le]
    rw [hl]
  have hlen2 : (rec.take off ++ bs).length = off + bs.length := by simp [hl]
  rw [List.drop_append_eq_append_drop, List.drop_append_eq_append_drop, h1,
    List.nil_append, hl, Nat.sub_self, List.drop_zero, hlen2]
  have h3 : off - (off + bs.length) = 0 := by omega
  rw [h3, List.drop_zero, List.take_left]

theorem setFlag0_length (rec : List Nat) (h : rec ≠ []) :
    (setFlag0 rec).length = rec.length := by
  have hpos : 0 < rec.length := List.length_pos.mpr h
  unfold setFlag0 writeAt
  simp
  omega

/-!
Claim C1 — tombstone reuse under a full index.
-/

/-- C1 counterexample.  Cars table with index capacity 4: adding keys
1, 2, 3, 4 fills every index slot; after deleting key 2 (slot 2 becomes a
tombstone, no slot is empty) the claimed insert of key 5 does *not*
succeed: `_find_slot_for_insert` only returns the recorded tombstone upon
reaching an empty slot, so the full scan raises `index full`. -/
theorem c1_counterexample :
    carsAdd1234.index = [⟨4, 3⟩, ⟨1, 0⟩, ⟨2, 1⟩, ⟨3, 2⟩] ∧
    (delete_record carsSpec carsAdd1234 2).2 = .ok () ∧
    carsFullTomb.index = [⟨4, 3⟩, ⟨1, 0⟩, ⟨4294967295, 0⟩, ⟨3, 2⟩] ∧
    (add_record carsSpec carsFullTomb 5 (recBytes 128 5)).2 = .error .indexFull := by
  decide

/-- C1 (amended): tombstone reuse requires that the probe still reaches
an empty slot.  With capacity 4, after adding keys 1, 2, 3 and deleting
key 2, adding key 5 succeeds and places key 5's index entry in key 2's
former slot (slot 2), reusing both the tombstoned index slot and the
freed record slot 1; lookup of key 5 then returns its record and lookup
of key 2 returns not-found.  Under a completely full index
(`c1_counterexample`) the same insert instead fails with `index full`. -/
theorem c1_amended_tombstone_reuse :
    carsAdd123.index = [⟨0, 0⟩, ⟨1, 0⟩, ⟨2, 1⟩, ⟨3, 2⟩] ∧
    (delete_record carsSpec carsAdd123 2).2 = .ok () ∧
    carsTomb2.index = [⟨0, 0⟩, ⟨1, 0⟩, ⟨4294967295, 0⟩, ⟨3, 2⟩] ∧
    (add_record carsSpec carsTomb2 5 (recBytes 128 5)).2 = .ok 1 ∧
    (add_record carsSpec carsTomb2 5 (recBytes 128 5)).1.index.getD 2 slot0 = ⟨5, 1⟩ ∧
    read_record (add_record carsSpec carsTomb2 5 (recBytes 128 5)).1 5 =
      some (recBytes 128 5) ∧
    read_record (add_record carsSpec carsTomb2 5 (recBytes 128 5)).1 2 = none := by
  decide

/-!
Claim C2 — equivalence of the two storage-engine implementations.
-/

/-- The two insert probes agree step by step as long as the index holds no
tombstone and the key is nonzero. -/
theorem insGo_eq_seed (idx : List IndexSlot) (key s : Nat) (hk : key ≠ 0)
    (ht : ∀ sl ∈ idx, sl.key ≠ TOMBSTONE_KEY) :
    ∀ fuel i, insGo idx key s fuel i none = seedToMain (seedFindGo idx key s fuel i) := by
  intro fuel
  induction fuel with
  | zero => intro i; rfl
  | succ fuel ih =>
      intro i
      simp only [insGo, seedFindGo]
      by_cases h0 : (idx.getD ((s + i) % idx.length) slot0).key = 0
      · have hkk : ¬(idx.getD ((s + i) % idx.length) slot0).key = key := by
          rw [h0]; exact fun h => hk h.symm
        have htmb : ¬(idx.getD ((s + i) % idx.length) slot0).key = TOMBSTONE_KEY := by
          rw [h0]; decide
        rw [if_neg hkk, if_neg htmb, if_pos h0, if_pos (Or.inl h0), if_pos h0]
        rfl
      · by_cases hkk : (idx.getD ((s + i) % idx.length) slot0).key = key
        · rw [if_pos hkk, if_pos (Or.inr hkk), if_neg h0]
          rfl
        · have hmem : idx.getD ((s + i) % idx.length) slot0 ∈ idx := by
            have hne : idx ≠ [] := by
              intro hnil
              apply h0
              rw [hnil]
              rfl
            have hlen : 0 < idx.length := List.length_pos.mpr hne
            have hj : (s + i) % idx.length < idx.length := Nat.mod_lt _ hlen
            rw [List.getD_eq_getElem _ _ hj]
            exact List.getElem_mem hj
          have htmb : ¬(idx.getD ((s + i) % idx.length) slot0).key = TOMBSTONE_KEY :=
            ht _ hmem
          have hor : ¬((idx.getD ((s + i) % idx.length) slot0).key = 0 ∨
              (idx.getD ((s + i) % idx.length) slot0).key = key) := by
            intro h
            cases h with
            | inl h => exact h0 h
            | inr h => exact hkk h
          rw [if_neg hkk, if_neg htmb, if_neg h0, if_neg hor]
          exact ih (i + 1)

/-- C2 counterexample.  In the reachable cars-table state `carsTomb2`
(keys 1, 2, 3 added, key 2 deleted, so slot 2 is a tombstone), inserting
key 5 places its index entry at slot 2 in the interactive application's
engine but at slot 0 in the seeding tool's engine — the `_find_slot`
probe of `seed_sample_data.py` ignores tombstones — so the two
implementations do not have byte-identical semantics on states containing
tombstones. -/
theorem c2_counterexample :
    find_slot_for_insert carsTomb2.index 5 = .ok 2 ∧
    seed_find_slot carsTomb2.index 5 = .ok (0, none) ∧
    (add_record carsSpec carsTomb2 5 (recBytes 128 5)).1.index.getD 2 slot0 = ⟨5, 1⟩ ∧
    (seed_add_record carsSpec carsTomb2 5 (recBytes 128 5)).1.index.getD 0 slot0 = ⟨5, 1⟩ ∧
    (add_record carsSpec carsTomb2 5 (recBytes 128 5)).1.index ≠
      (seed_add_record carsSpec carsTomb2 5 (recBytes 128 5)).1.index := by
  decide

/-- C2 (amended): the two `add_record` implementations coincide — same
result and byte-identical resulting state — on every state whose index
contains no tombstone (in particular on any state produced by adds alone)
for every nonzero key; with tombstones present they diverge
(`c2_counterexample`).  Their `open`/`read`/`update` paths are textually
identical in the two sources and are shared by this embedding. -/
theorem c2_amended_add_equiv (sp : TSpec) (st : TableState) (key : Nat)
    (packed : List Nat) (hk : key ≠ 0)
    (ht : ∀ sl ∈ st.index, sl.key ≠ TOMBSTONE_KEY) :
    add_record sp st key packed = seed_add_record sp st key packed := by
  have heq : find_slot_for_insert st.index key = seedToMain (seed_find_slot st.index key) := by
    unfold find_slot_for_insert seed_find_slot
    exact insGo_eq_seed st.index key (hashKey key st.index.length) hk ht st.index.length 0
  simp only [add_record, seed_add_record, alloc_index_eq, heq]
  cases hs : seed_find_slot st.index key with
  | error e => simp [seedToMain]
  | ok p =>
      cases p with
      | mk j osl =>
          cases osl with
          | none => simp [seedToMain]
          | some sl => simp [seedToMain]

/-- C2 witness: on the tombstone-free state holding only key 1, adding
key 2 is identical in both implementations. -/
theorem c2_amended_add_equiv_witness :
    add_record tinySpec tinyAdd1 2 (recBytes 8 2) =
      seed_add_record tinySpec tinyAdd1 2 (recBytes 8 2) :=
  c2_amended_add_equiv tinySpec tinyAdd1 2 (recBytes 8 2) (by decide) (by decide)

/-!
Claim C3 — non-atomic `add_record` on index failure.
-/

/-- C3: if the insert probe fails (duplicate key or full index) after
`add_record` has already allocated a record slot and written the encoded
record there, the call propagates that error and leaves the slot
orphaned: the bytes remain at the allocated position, the index is
unchanged (so no slot references the allocation), `active_count`,
`deleted_count` and `next_id` are unchanged, and the free list is exactly
what `_alloc_rec_index` left (the allocated slot is not pushed back; in
particular a fresh tail allocation leaves `free_head = -1`). -/
theorem c3_orphaned_add (sp : TSpec) (st : TableState) (key : Nat)
    (packed : List Nat) (e : BinErr)
    (hi : (alloc_rec_index sp st).2 ≤ st.recs.length)
    (hf : find_slot_for_insert st.index key = .error e) :
    (add_record sp st key packed).2 = .error e ∧
    (add_record sp st key packed).1.index = st.index ∧
    (add_record sp st key packed).1.active_count = st.active_count ∧
    (add_record sp st key packed).1.deleted_count = st.deleted_count ∧
    (add_record sp st key packed).1.next_id = st.next_id ∧
    (add_record sp st key packed).1.recs.getD (alloc_rec_index sp st).2 [] = packed ∧
    (add_record sp st key packed).1.free_head = (alloc_rec_index sp st).1.free_head ∧
    (st.free_head = -1 → (add_record sp st key packed).1.free_head = -1) := by
  have hstep : add_record sp st key packed =
      ({ (alloc_rec_index sp st).1 with
          recs := write_raw (alloc_rec_index sp st).1.recs (alloc_rec_index sp st).2 packed },
        .error e) := by
    simp only [add_record, alloc_index_eq, hf]
  rw [hstep]
  refine ⟨rfl, alloc_index_eq sp st, alloc_active_eq sp st, alloc_deleted_eq sp st,
    alloc_next_id_eq sp st, ?_, rfl, ?_⟩
  · show (write_raw (alloc_rec_index sp st).1.recs (alloc_rec_index sp st).2
        packed).getD (alloc_rec_index sp st).2 [] = packed
    rw [alloc_recs_eq]
    exact write_raw_getD_self _ _ _ hi
  · intro hfree
    show (alloc_rec_index sp st).1.free_head = -1
    rw [alloc_of_empty_free sp st hfree]
    exact hfree

/-- C3 witness: adding key 1 to a table that already holds key 1 (tiny
4-slot table) raises the duplicate-key error and leaves the freshly
written record 1 orphaned. -/
theorem c3_orphaned_add_witness :
    (add_record tinySpec tinyAdd1 1 (recBytes 8 9)).2 = .error .duplicateKey ∧
    (add_record tinySpec tinyAdd1 1 (recBytes 8 9)).1.index = tinyAdd1.index ∧
    (add_record tinySpec tinyAdd1 1 (recBytes 8 9)).1.active_count =
      tinyAdd1.active_count ∧
    (add_record tinySpec tinyAdd1 1 (recBytes 8 9)).1.deleted_count =
      tinyAdd1.deleted_count ∧
    (add_record tinySpec tinyAdd1 1 (recBytes 8 9)).1.next_id = tinyAdd1.next_id ∧
    (add_record tinySpec tinyAdd1 1 (recBytes 8 9)).1.recs.getD
      (alloc_rec_index tinySpec tinyAdd1).2 [] = recBytes 8 9 ∧
    (add_record tinySpec tinyAdd1 1 (recBytes 8 9)).1.free_head =
      (alloc_rec_index tinySpec tinyAdd1).1.free_head ∧
    (tinyAdd1.free_head = -1 →
      (add_record tinySpec tinyAdd1 1 (recBytes 8 9)).1.free_head = -1) :=
  c3_orphaned_add tinySpec tinyAdd1 1 (recBytes 8 9) .duplicateKey
    (by decide) (by decide)

/-!
Claim C5 — tombstones do not break probe chains.
-/

/-- A successful `_slot_of_key` probe returns an in-range slot holding the
searched key, and the key is nonzero. -/
theorem slotGo_some_spec (idx : List IndexSlot) (key s : Nat) :
    ∀ fuel i sj, slotGo idx key s fuel i = some sj →
      (idx.getD sj slot0).key = key ∧ key ≠ 0 ∧ sj < idx.length := by
  intro fuel
  induction fuel with
  | zero => intro i sj h; cases h
  | succ fuel ih =>
      intro i sj h
      simp only [slotGo] at h
      by_cases h0 : (idx.getD ((s + i) % idx.length) slot0).key = 0
      · rw [if_pos h0] at h; cases h
      · rw [if_neg h0] at h
        by_cases hk : (idx.getD ((s + i) % idx.length) slot0).key = key
        · rw [if_pos hk] at h
          injection h with h'
          subst h'
          refine ⟨hk, fun hk0 => h0 (by rw [hk, hk0]), ?_⟩
          have hlen : 0 < idx.length := by
            by_contra hc
            have hnil : idx = [] := by
              cases idx with
              | nil => rfl
              | cons x xs => exact absurd (by simp) hc
            apply h0
            rw [hnil]
            rfl
          exact Nat.mod_lt _ hlen
        · rw [if_neg hk] at h
          exact ih (i + 1) sj h

/-- Tombstoning a slot that holds neither the empty key nor the searched
key does not change a single step of the lookup probe: the probe only
stops early at `key = 0`, and the tombstone sentinel is nonzero. -/
theorem lookGo_set_tomb (idx : List IndexSlot) (b s sj : Nat)
    (hsj : sj < idx.length)
    (hb : b ≠ TOMBSTONE_KEY)
    (hkey0 : (idx.getD sj slot0).key ≠ 0)
    (hkeyb : (idx.getD sj slot0).key ≠ b) :
    ∀ fuel i, lookGo (idx.set sj ⟨TOMBSTONE_KEY, 0⟩) b s fuel i = lookGo idx b s fuel i := by
  intro fuel
  induction fuel with
  | zero => intro i; rfl
  | succ fuel ih =>
      intro i
      simp only [lookGo, List.length_set]
      by_cases hj : (s + i) % idx.length = sj
      · rw [hj, getD_set_self idx sj _ slot0 hsj]
        rw [if_neg (by decide : ¬(IndexSlot.mk TOMBSTONE_KEY 0).key = 0)]
        rw [if_neg (show ¬(IndexSlot.mk TOMBSTONE_KEY 0).key = b from fun h => hb h.symm)]
        rw [if_neg hkey0, if_neg hkeyb]
        exact ih (i + 1)
      · rw [getD_set_ne idx _ slot0 (fun h => hj h.symm)]
        by_cases h0 : (idx.getD ((s + i) % idx.length) slot0).key = 0
        · rw [if_pos h0, if_pos h0]
        · rw [if_neg h0, if_neg h0]
          by_cases hkb : (idx.getD ((s + i) % idx.length) slot0).key = b
          · rw [if_pos hkb, if_pos hkb]
          · rw [if_neg hkb, if_neg hkb]
            exact ih (i + 1)

theorem lookup_set_tomb (idx : List IndexSlot) (b sj : Nat)
    (hsj : sj < idx.length)
    (hb : b ≠ TOMBSTONE_KEY)
    (hkey0 : (idx.getD sj slot0).key ≠ 0)
    (hkeyb : (idx.getD sj slot0).key ≠ b) :
    lookup (idx.set sj ⟨TOMBSTONE_KEY, 0⟩) b = lookup idx b := by
  unfold lookup hashKey
  rw [List.length_set]
  exact lookGo_set_tomb idx b _ sj hsj hb hkey0 hkeyb idx.length 0

/-- C5: if keys `a` and `b` are both present (with distinct record
positions), deleting `a` succeeds — its index slot becomes a tombstone —
and lookup of the surviving key `b` still returns exactly the record it
returned before the delete: the lookup probe stops only at truly empty
slots (`key = 0`) and scans straight through tombstones. -/
theorem c5_tombstone_keeps_chain (sp : TSpec) (st : TableState) (a b ra rb : Nat)
    (hA : lookup st.index a = some ra)
    (hB : lookup st.index b = some rb)
    (hab : a ≠ b)
    (hbt : b ≠ TOMBSTONE_KEY)
    (hr : ra ≠ rb) :
    (delete_record sp st a).2 = .ok () ∧
    read_record (delete_record sp st a).1 b = some (st.recs.getD rb []) ∧
    read_record st b = some (st.recs.getD rb []) := by
  have hread : read_record st b = some (st.recs.getD rb []) := by
    unfold read_record
    rw [hB]
  refine ⟨?_, ?_, hread⟩
  · simp only [delete_record, write_next_free, hA]
  · simp only [delete_record, write_next_free, hA]
    cases hsj : slot_of_key st.index a with
    | none =>
        simp only [read_record]
        simp only [hB]
        rw [getD_set_ne _ _ _ hr, getD_set_ne _ _ _ hr]
    | some sj =>
        obtain ⟨hkeq, hane, hlt⟩ := slotGo_some_spec st.index a _ _ _ _ hsj
        simp only [read_record]
        rw [lookup_set_tomb st.index b sj hlt hbt
          (by rw [hkeq]; exact hane) (by rw [hkeq]; exact hab)]
        simp only [hB]
        rw [getD_set_ne _ _ _ hr, getD_set_ne _ _ _ hr]

/-- C5 witness: keys 1 and 5 collide modulo 4 (5 probes through slot 1
into slot 2); after deleting key 1, key 5 is still found with its
original record. -/
theorem c5_tombstone_keeps_chain_witness :
    (delete_record tinySpec tinyAdd15 1).2 = .ok () ∧
    read_record (delete_record tinySpec tinyAdd15 1).1 5 =
      some (tinyAdd15.recs.getD 1 []) ∧
    read_record tinyAdd15 5 = some (tinyAdd15.recs.getD 1 []) :=
  c5_tombstone_keeps_chain tinySpec tinyAdd15 1 5 0 1 (by decide) (by decide)
    (by decide) (by decide) (by decide)

/-!
Claim C6 — the free list is a LIFO stack.
-/

/-- A successful delete returns `ok`. -/
theorem delete_record_snd (sp : TSpec) (st : TableState) (key ri : Nat)
    (h : lookup st.index key = some ri) :
    (delete_record sp st key).2 = .ok () := by
  cases hsj : slot_of_key st.index key <;>
    simp [delete_record, write_next_free, h, hsj]

/-- Delete pushes the deleted record's position onto the free-list head. -/
theorem delete_record_free_head (sp : TSpec) (st : TableState) (key ri : Nat)
    (h : lookup st.index key = some ri) :
    (delete_record sp st key).1.free_head = (ri : Int) := by
  cases hsj : slot_of_key st.index key <;>
    simp [delete_record, write_next_free, h, hsj]

theorem delete_record_recs_length (sp : TSpec) (st : TableState) (key ri : Nat)
    (h : lookup st.index key = some ri) :
    (delete_record sp st key).1.recs.length = st.recs.length := by
  cases hsj : slot_of_key st.index key <;>
    simp [delete_record, write_next_free, h, hsj]

/-- Delete touches no record other than the deleted one. -/
theorem delete_record_recs_getD_ne (sp : TSpec) (st : TableState) (key ri q : Nat)
    (h : lookup st.index key = some ri) (hq : ri ≠ q) :
    (delete_record sp st key).1.recs.getD q [] = st.recs.getD q [] := by
  cases hsj : slot_of_key st.index key <;>
    simp only [delete_record, write_next_free, h, hsj] <;>
    rw [getD_set_ne _ _ _ hq, getD_set_ne _ _ _ hq]

/-- The deleted record afterwards: flag byte zeroed and the previous
free-list head encoded into its pad bytes. -/
theorem delete_record_recs_getD_self (sp : TSpec) (st : TableState) (key ri : Nat)
    (h : lookup st.index key = some ri) (hlt : ri < st.recs.length) :
    (delete_record sp st key).1.recs.getD ri [] =
      writeAt (setFlag0 (st.recs.getD ri [])) sp.pad_off (encI32 st.free_head) := by
  cases hsj : slot_of_key st.index key <;>
    simp only [delete_record, write_next_free, h, hsj] <;>
    rw [getD_set_self _ _ _ _ (by simpa using hlt), getD_set_self _ _ _ _ hlt]

/-- Allocation pops the free-list head when it is a record position. -/
theorem alloc_pop (sp : TSpec) (st : TableState) (r : Nat)
    (hfh : st.free_head = (r : Nat)) :
    alloc_rec_index sp st = ({ st with free_head := read_next_free sp st r }, r) := by
  simp only [alloc_rec_index]
  rw [if_pos (by rw [hfh]; omega)]
  rw [hfh, Int.toNat_natCast]

/-- A successful add returns the freshly allocated record position. -/
theorem add_record_snd_ok (sp : TSpec) (st : TableState) (key j : Nat)
    (packed : List Nat)
    (hj : find_slot_for_insert st.index key = .ok j) :
    (add_record sp st key packed).2 = .ok (alloc_rec_index sp st).2 := by
  simp only [add_record, alloc_index_eq, hj]

/-- A successful add leaves `free_head` exactly as allocation left it. -/
theorem add_record_free_head (sp : TSpec) (st : TableState) (key j : Nat)
    (packed : List Nat)
    (hj : find_slot_for_insert st.index key = .ok j) :
    (add_record sp st key packed).1.free_head = (alloc_rec_index sp st).1.free_head := by
  simp only [add_record, alloc_index_eq, hj]

/-- A successful add writes exactly one index slot. -/
theorem add_record_index (sp : TSpec) (st : TableState) (key j : Nat)
    (packed : List Nat)
    (hj : find_slot_for_insert st.index key = .ok j) :
    (add_record sp st key packed).1.index =
      st.index.set j ⟨key, (alloc_rec_index sp st).2⟩ := by
  simp only [add_record, alloc_index_eq, hj]

/-- C6: the free list is LIFO.  Deleting record A (key `ka`, record
position `rA`) and then record B (key `kb`, position `rB`) leaves
`free_head = rB` with record B's pad bytes linking to `rA`; two
subsequent adds whose insert probes succeed allocate `rB` to the first
add and `rA` to the second — the most recently deleted slot is reused
first. -/
theorem c6_free_list_lifo (sp : TSpec) (st : TableState)
    (ka kb rA rB k1 k2 j1 j2 : Nat) (p1 p2 : List Nat)
    (hA : lookup st.index ka = some rA)
    (hB : lookup (delete_record sp st ka).1.index kb = some rB)
    (hab : rA ≠ rB)
    (hlenB : rB < st.recs.length)
    (hpadB : sp.pad_off ≤ (st.recs.getD rB []).length)
    (hne : st.recs.getD rB [] ≠ [])
    (hrange : rA < 2147483648)
    (hj1 : find_slot_for_insert
      (delete_record sp (delete_record sp st ka).1 kb).1.index k1 = .ok j1)
    (hj2 : find_slot_for_insert
      (add_record sp (delete_record sp (delete_record sp st ka).1 kb).1 k1 p1).1.index
        k2 = .ok j2) :
    (delete_record sp st ka).2 = .ok () ∧
    (delete_record sp (delete_record sp st ka).1 kb).2 = .ok () ∧
    (delete_record sp (delete_record sp st ka).1 kb).1.free_head = (rB : Int) ∧
    (add_record sp (delete_record sp (delete_record sp st ka).1 kb).1 k1 p1).2 =
      .ok rB ∧
    (add_record sp
      (add_record sp (delete_record sp (delete_record sp st ka).1 kb).1 k1 p1).1
      k2 p2).2 = .ok rA := by
  have hfh1 : (delete_record sp st ka).1.free_head = (rA : Int) :=
    delete_record_free_head sp st ka rA hA
  have hfh2 : (delete_record sp (delete_record sp st ka).1 kb).1.free_head = (rB : Int) :=
    delete_record_free_head sp (delete_record sp st ka).1 kb rB hB
  have hrecB1 : (delete_record sp st ka).1.recs.getD rB [] = st.recs.getD rB [] :=
    delete_record_recs_getD_ne sp st ka rA rB hA hab
  have hltB1 : rB < (delete_record sp st ka).1.recs.length := by
    rw [delete_record_recs_length sp st ka rA hA]
    exact hlenB
  have hrecB2 : (delete_record sp (delete_record sp st ka).1 kb).1.recs.getD rB [] =
      writeAt (setFlag0 (st.recs.getD rB [])) sp.pad_off (encI32 (rA : Int)) := by
    rw [delete_record_recs_getD_self sp (delete_record sp st ka).1 kb rB hB hltB1,
      hrecB1, hfh1]
  have hread : read_next_free sp (delete_record sp (delete_record sp st ka).1 kb).1 rB =
      (rA : Int) := by
    unfold read_next_free
    rw [hrecB2]
    have hsl : (setFlag0 (st.recs.getD rB [])).length = (st.recs.getD rB []).length :=
      setFlag0_length _ hne
    have hpad' : sp.pad_off ≤ (setFlag0 (st.recs.getD rB [])).length := by
      rw [hsl]; exact hpadB
    have hrw := readAt_writeAt (setFlag0 (st.recs.getD rB [])) sp.pad_off
      (encI32 (rA : Int)) hpad'
    rw [encI32_length] at hrw
    rw [hrw]
    exact decI32_encI32 _ (by omega) (by exact_mod_cast hrange)
  have halloc1 := alloc_pop sp (delete_record sp (delete_record sp st ka).1 kb).1 rB hfh2
  have hadd1 : (add_record sp (delete_record sp (delete_record sp st ka).1 kb).1 k1 p1).2 =
      .ok rB := by
    have h := add_record_snd_ok sp (delete_record sp (delete_record sp st ka).1 kb).1
      k1 j1 p1 hj1
    rw [halloc1] at h
    exact h
  have hst3fh : (add_record sp (delete_record sp (delete_record sp st ka).1 kb).1
      k1 p1).1.free_head = (rA : Int) := by
    rw [add_record_free_head sp (delete_record sp (delete_record sp st ka).1 kb).1
      k1 j1 p1 hj1, halloc1]
    exact hread
  have halloc2 := alloc_pop sp
    (add_record sp (delete_record sp (delete_record sp st ka).1 kb).1 k1 p1).1 rA hst3fh
  have hadd2 : (add_record sp
      (add_record sp (delete_record sp (delete_record sp st ka).1 kb).1 k1 p1).1
      k2 p2).2 = .ok rA := by
    have h := add_record_snd_ok sp
      (add_record sp (delete_record sp (delete_record sp st ka).1 kb).1 k1 p1).1
      k2 j2 p2 hj2
    rw [halloc2] at h
    exact h
  exact ⟨delete_record_snd sp st ka rA hA,
    delete_record_snd sp (delete_record sp st ka).1 kb rB hB, hfh2, hadd1, hadd2⟩

/-- C6 witness: in the tiny table holding keys 1 (record 0) and 2
(record 1), deleting key 1 then key 2 and adding keys 3 and 5 allocates
record 1 (B) to the first add and record 0 (A) to the second. -/
theorem c6_free_list_lifo_witness :
    (delete_record tinySpec tinyAdd12 1).2 = .ok () ∧
    (delete_record tinySpec (delete_record tinySpec tinyAdd12 1).1 2).2 = .ok () ∧
    (delete_record tinySpec (delete_record tinySpec tinyAdd12 1).1 2).1.free_head =
      (1 : Int) ∧
    (add_record tinySpec (delete_record tinySpec (delete_record tinySpec tinyAdd12 1).1 2).1
      3 (recBytes 8 3)).2 = .ok 1 ∧
    (add_record tinySpec
      (add_record tinySpec
        (delete_record tinySpec (delete_record tinySpec tinyAdd12 1).1 2).1
        3 (recBytes 8 3)).1
      5 (recBytes 8 5)).2 = .ok 0 :=
  c6_free_list_lifo tinySpec tinyAdd12 1 2 0 1 3 5 3 1 (recBytes 8 3) (recBytes 8 5)
    (by decide) (by decide) (by decide) (by decide) (by decide) (by decide)
    (by decide) (by decide) (by decide)

/-!
Claim C4 — key uniqueness invariant.
-/

theorem probeKeyAt_def (idx : List IndexSlot) (s u : Nat) :
    probeKeyAt idx s u = (idx.getD ((s + u) % idx.length) slot0).key := rfl

/-- What a successful insert probe guarantees: the inserted key is
nonzero, some probe distance `d` reaches an empty slot with no earlier
slot empty or holding the key, and the returned position lies at distance
`dp ≤ d` and was empty or a tombstone. -/
theorem insGo_ok_spec (idx : List IndexSlot) (key s : Nat) :
    ∀ fuel i ft p,
      (∀ u, u < i → probeKeyAt idx s u ≠ key ∧ probeKeyAt idx s u ≠ 0) →
      (∀ q, ft = some q → ∃ u, u < i ∧ q = (s + u) % idx.length ∧
        probeKeyAt idx s u = TOMBSTONE_KEY) →
      insGo idx key s fuel i ft = .ok p →
      key ≠ 0 ∧
      ∃ d, i ≤ d ∧ d < i + fuel ∧ probeKeyAt idx s d = 0 ∧
        (∀ u, u < d → probeKeyAt idx s u ≠ key ∧ probeKeyAt idx s u ≠ 0) ∧
        ∃ dp, dp ≤ d ∧ p = (s + dp) % idx.length ∧
          (probeKeyAt idx s dp = 0 ∨ probeKeyAt idx s dp = TOMBSTONE_KEY) := by
  intro fuel
  induction fuel with
  | zero => intro i ft p _ _ h; cases h
  | succ fuel ih =>
      intro i ft p hpre hft h
      simp only [insGo] at h
      by_cases hkk : (idx.getD ((s + i) % idx.length) slot0).key = key
      · rw [if_pos hkk] at h; cases h
      · rw [if_neg hkk] at h
        by_cases h0 : (idx.getD ((s + i) % idx.length) slot0).key = 0
        · have htmb : ¬(idx.getD ((s + i) % idx.length) slot0).key = TOMBSTONE_KEY := by
            rw [h0]; decide
          rw [if_pos h0] at h
          have hk0 : key ≠ 0 := by
            intro hk
            exact hkk (by rw [h0, hk])
          refine ⟨hk0, i, Nat.le_refl i, by omega, h0, hpre, ?_⟩
          cases hftv : ft with
          | none =>
              subst hftv
              rw [if_neg htmb] at h
              injection h with h'
              exact ⟨i, Nat.le_refl i, h'.symm, Or.inl h0⟩
          | some q =>
              subst hftv
              obtain ⟨u, hui, hq, hKu⟩ := hft q rfl
              injection h with h'
              exact ⟨u, Nat.le_of_lt hui, by rw [← h']; exact hq, Or.inr hKu⟩
        · rw [if_neg h0] at h
          have hpre' : ∀ u, u < i + 1 →
              probeKeyAt idx s u ≠ key ∧ probeKeyAt idx s u ≠ 0 := by
            intro u hu
            rcases Nat.lt_or_ge u i with hlt | hge
            · exact hpre u hlt
            · have : u = i := by omega
              subst this
              exact ⟨hkk, h0⟩
          have hft' : ∀ q,
              (match ft with
                | some q => some q
                | none => if (idx.getD ((s + i) % idx.length) slot0).key = TOMBSTONE_KEY
                    then some ((s + i) % idx.length) else none) = some q →
              ∃ u, u < i + 1 ∧ q = (s + u) % idx.length ∧
                probeKeyAt idx s u = TOMBSTONE_KEY := by
            intro q hq
            cases hftv : ft with
            | some q' =>
                rw [hftv] at hq
                injection hq with hq'
                obtain ⟨u, hui, he, hKu⟩ := hft q' hftv
                exact ⟨u, by omega, by rw [← hq']; exact he, hKu⟩
            | none =>
                rw [hftv] at hq
                by_cases hT : (idx.getD ((s + i) % idx.length) slot0).key = TOMBSTONE_KEY
                · rw [if_pos hT] at hq
                  injection hq with hq'
                  exact ⟨i, by omega, hq'.symm, hT⟩
                · rw [if_neg hT] at hq
                  cases hq
          obtain ⟨hk0, d, hdi, hdf, hd0, hdpre, dp, hdpd, hpe, hdp⟩ :=
            ih (i + 1) _ p hpre' hft' h
          exact ⟨hk0, d, by omega, by omega, hd0, hdpre, dp, hdpd, hpe, hdp⟩

theorem find_slot_ok_spec (idx : List IndexSlot) (key p : Nat)
    (h : find_slot_for_insert idx key = .ok p) :
    key ≠ 0 ∧
    ∃ d, d < idx.length ∧ probeKeyAt idx (hashKey key idx.length) d = 0 ∧
      (∀ u, u < d → probeKeyAt idx (hashKey key idx.length) u ≠ key ∧
        probeKeyAt idx (hashKey key idx.length) u ≠ 0) ∧
      ∃ dp, dp ≤ d ∧ p = (hashKey key idx.length + dp) % idx.length ∧
        (probeKeyAt idx (hashKey key idx.length) dp = 0 ∨
          probeKeyAt idx (hashKey key idx.length) dp = TOMBSTONE_KEY) := by
  obtain ⟨hk0, d, _, hdf, hd0, hdpre, rest⟩ :=
    insGo_ok_spec idx key (hashKey key idx.length) idx.length 0 none p
      (fun u hu => absurd hu (Nat.not_lt_zero u))
      (fun q hq => by cases hq) h
  exact ⟨hk0, d, by omega, hd0, hdpre, rest⟩

theorem nonzero_after_set (idx : List IndexSlot) (p q : Nat) (sl : IndexSlot)
    (hsl : sl.key ≠ 0) (hq : (idx.getD q slot0).key ≠ 0) :
    ((idx.set p sl).getD q slot0).key ≠ 0 := by
  by_cases hpq : p = q
  · subst hpq
    by_cases hp : p < idx.length
    · rw [getD_set_self _ _ _ _ hp]
      exact hsl
    · rw [List.set_eq_of_length_le (Nat.le_of_not_lt hp)]
      exact hq
  · rw [getD_set_ne _ _ _ hpq]
    exact hq

theorem probeKeyAt_set_nonzero (idx : List IndexSlot) (p s u : Nat) (sl : IndexSlot)
    (hsl : sl.key ≠ 0) (hq : probeKeyAt idx s u ≠ 0) :
    probeKeyAt (idx.set p sl) s u ≠ 0 := by
  unfold probeKeyAt
  rw [List.length_set]
  exact nonzero_after_set idx p _ sl hsl hq

/-- Writing the probed slot preserves the index invariant.  The crux:
a live occurrence of the inserted key elsewhere would, by its own
findability, appear on the scanned probe prefix — contradicting the
successful scan. -/
theorem add_preserves_inv (idx : List IndexSlot) (key p ri : Nat)
    (hinv : IndexInv idx)
    (hp : find_slot_for_insert idx key = .ok p) :
    IndexInv (idx.set p ⟨key, ri⟩) := by
  obtain ⟨hk0, d, hdlt, hd0, hdpre, dp, hdpd, hpe, hdp⟩ := find_slot_ok_spec idx key p hp
  have hn : 0 < idx.length := Nat.lt_of_le_of_lt (Nat.zero_le d) hdlt
  have hplt : p < idx.length := by
    rw [hpe]
    exact Nat.mod_lt _ hn
  have hnotlive : ∀ j', j' < idx.length → live (idx.getD j' slot0) →
      (idx.getD j' slot0).key ≠ key := by
    intro j' hj' hlive hkeq
    obtain ⟨t, htlt, hte, htpre⟩ := hinv.1 j' hj' hlive
    rw [hkeq] at hte htpre
    have hKt : probeKeyAt idx (hashKey key idx.length) t = key := by
      rw [probeKeyAt_def, ← hte]
      exact hkeq
    rcases Nat.lt_trichotomy t d with hlt | heq | hgt
    · exact (hdpre t hlt).1 hKt
    · rw [heq, hd0] at hKt
      exact hk0 hKt.symm
    · exact htpre d hgt hd0
  constructor
  · -- Findable for all live slots of the new index
    intro j hj hlive
    rw [List.length_set] at hj
    by_cases hjp : j = p
    · subst hjp
      rw [getD_set_self _ _ _ _ hplt] at hlive
      unfold Findable
      rw [List.length_set, getD_set_self _ _ _ _ hplt]
      refine ⟨dp, by omega, hpe, ?_⟩
      intro u hu
      exact probeKeyAt_set_nonzero idx j _ u _ hk0 (hdpre u (by omega)).2
    · rw [getD_set_ne _ _ _ (fun h => hjp h.symm)] at hlive
      obtain ⟨t, htlt, hte, htpre⟩ := hinv.1 j hj hlive
      unfold Findable
      rw [List.length_set, getD_set_ne _ _ _ (fun h => hjp h.symm)]
      refine ⟨t, htlt, hte, ?_⟩
      intro u hu
      exact probeKeyAt_set_nonzero idx p _ u _ hk0 (htpre u hu)
  · -- NoDupLive
    intro i hi j hj hij hlivei hlivej
    rw [List.length_set] at hi hj
    by_cases hip : i = p
    · subst hip
      rw [getD_set_self _ _ _ _ hplt] at hlivei ⊢
      rw [getD_set_ne _ _ _ (fun h => hij h)] at hlivej ⊢
      exact fun hkeq => hnotlive j hj hlivej (by rw [← hkeq])
    · by_cases hjp : j = p
      · subst hjp
        rw [getD_set_self _ _ _ _ hplt] at hlivej ⊢
        rw [getD_set_ne _ _ _ (fun h => hip h.symm)] at hlivei ⊢
        exact fun hkeq => hnotlive i hi hlivei hkeq
      · rw [getD_set_ne _ _ _ (fun h => hip h.symm)] at hlivei ⊢
        rw [getD_set_ne _ _ _ (fun h => hjp h.symm)] at hlivej ⊢
        exact hinv.2 i hi j hj hij hlivei hlivej

/-- Tombstoning any slot preserves the invariant: the tombstone key is
nonzero, so no probe path acquires an early empty slot, and the slot
itself stops being live. -/
theorem set_tomb_preserves_inv (idx : List IndexSlot) (sj : Nat)
    (hinv : IndexInv idx) :
    IndexInv (idx.set sj ⟨TOMBSTONE_KEY, 0⟩) := by
  by_cases hsj : sj < idx.length
  · constructor
    · intro j hj hlive
      rw [List.length_set] at hj
      by_cases hjp : j = sj
      · subst hjp
        rw [getD_set_self _ _ _ _ hsj] at hlive
        exact absurd rfl hlive.2
      · rw [getD_set_ne _ _ _ (fun h => hjp h.symm)] at hlive
        obtain ⟨t, htlt, hte, htpre⟩ := hinv.1 j hj hlive
        unfold Findable
        rw [List.length_set, getD_set_ne _ _ _ (fun h => hjp h.symm)]
        refine ⟨t, htlt, hte, ?_⟩
        intro u hu
        exact probeKeyAt_set_nonzero idx sj _ u _ (by decide) (htpre u hu)
    · intro i hi j hj hij hlivei hlivej
      rw [List.length_set] at hi hj
      by_cases hip : i = sj
      · subst hip
        rw [getD_set_self _ _ _ _ hsj] at hlivei
        exact absurd rfl hlivei.2
      · by_cases hjp : j = sj
        · subst hjp
          rw [getD_set_self _ _ _ _ hsj] at hlivej
          exact absurd rfl hlivej.2
        · rw [getD_set_ne _ _ _ (fun h => hip h.symm)] at hlivei ⊢
          rw [getD_set_ne _ _ _ (fun h => hjp h.symm)] at hlivej ⊢
          exact hinv.2 i hi j hj hij hlivei hlivej
  · rw [List.set_eq_of_length_le (Nat.le_of_not_lt hsj)]
    exact hinv

theorem initTable_inv (slots : Nat) : IndexInv (initTable slots).index := by
  constructor
  · intro j hj hlive
    simp only [initTable] at hj hlive
    rw [List.length_replicate] at hj
    have : (List.replicate slots slot0).getD j slot0 = slot0 := by
      simp [List.getD, List.getElem?_replicate, hj]
    rw [this] at hlive
    exact absurd rfl hlive.1
  · intro i hi j hj hij hlivei hlivej
    simp only [initTable] at hi hlivei
    rw [List.length_replicate] at hi
    have : (List.replicate slots slot0).getD i slot0 = slot0 := by
      simp [List.getD, List.getElem?_replicate, hi]
    rw [this] at hlivei
    exact absurd rfl hlivei.1

theorem reachable_index_inv (sp : TSpec) (slots : Nat) (st : TableState)
    (h : Reachable sp slots st) : IndexInv st.index := by
  induction h with
  | init => exact initTable_inv slots
  | add st key packed i hre hok ih =>
      cases hfind : find_slot_for_insert st.index key with
      | error e =>
          have hbad : (add_record sp st key packed).2 = .error e := by
            simp only [add_record, alloc_index_eq, hfind]
          rw [hok] at hbad
          cases hbad
      | ok j =>
          rw [add_record_index sp st key j packed hfind]
          exact add_preserves_inv st.index key j _ ih hfind
  | del st key hre hok ih =>
      cases hlk : lookup st.index key with
      | none =>
          have hbad : (delete_record sp st key).2 = .error .notFound := by
            simp only [delete_record, hlk]
          rw [hok] at hbad
          cases hbad
      | some ri =>
          cases hsj : slot_of_key st.index key with
          | none =>
              have heq : (delete_record sp st key).1.index = st.index := by
                simp only [delete_record, write_next_free, hlk, hsj]
              rw [heq]
              exact ih
          | some sj =>
              have heq : (delete_record sp st key).1.index =
                  st.index.set sj ⟨TOMBSTONE_KEY, 0⟩ := by
                simp only [delete_record, write_next_free, hlk, hsj]
              rw [heq]
              exact set_tomb_preserves_inv st.index sj ih

/-- C4: after every sequence of successful `add_record` / `delete_record`
calls starting from a freshly created table, no two distinct live index
slots (key neither 0 nor the tombstone sentinel) hold the same key.
Proven through the invariant `IndexInv`: every live slot is reachable by
probing from its key's hash slot without crossing an empty slot, which is
exactly what makes a successful insert probe's duplicate scan complete. -/
theorem c4_no_dup_live_keys (sp : TSpec) (slots : Nat) (st : TableState)
    (h : Reachable sp slots st) : NoDupLive st.index :=
  (reachable_index_inv sp slots st h).2

/-- C4 witness: the invariant evaluated on a concrete reachable state. -/
theorem c4_no_dup_live_keys_witness :
    NoDupLive (add_record tinySpec (initTable 4) 1 (recBytes 8 1)).1.index :=
  c4_no_dup_live_keys tinySpec 4 _
    (Reachable.add (initTable 4) 1 (recBytes 8 1) 0 Reachable.init (by decide))

/-!
Claim C7 — codec round trip for the three record types.
-/

theorem cust_roundtrip (r : CustomerRec) (h : CustOk r) :
    cust_unpack (cust_pack r) = r := by
  obtain ⟨h1, h2, ⟨h3a, h3b⟩, ⟨h4a, h4b⟩, ⟨h5a, h5b⟩, h6, h7⟩ := h
  cases r with
  | mk flag cid idc nam ph birth gen =>
      simp only at h1 h2 h3a h3b h4a h4b h5a h5b h6 h7
      simp only [cust_pack, cust_unpack]
      simp [readAt_append, readAt_here, length_fit, encU8_length, encU32_length,
        CustomerRec.mk.injEq]
      exact ⟨decU8_encU8 _ h1, decU32_encU32 _ h2, rstrip0_fit _ _ h3a h3b,
        rstrip0_fit _ _ h4a h4b, rstrip0_fit _ _ h5a h5b, decU32_encU32 _ h6,
        decU8_encU8 _ h7⟩

theorem cars_roundtrip (r : CarRec) (h : CarOk r) :
    cars_unpack (cars_pack r) = r := by
  obtain ⟨h1, h2, ⟨h3a, h3b⟩, ⟨h4a, h4b⟩, ⟨h5a, h5b⟩, h6, h7, h8, h9, h10⟩ := h
  cases r with
  | mk flag cid pl br md yr rt odo st up =>
      simp only at h1 h2 h3a h3b h4a h4b h5a h5b h6 h7 h8 h9 h10
      simp only [cars_pack, cars_unpack]
      simp [readAt_append, readAt_here, length_fit, encU8_length, encU16_length,
        encU32_length, CarRec.mk.injEq]
      exact ⟨decU8_encU8 _ h1, decU32_encU32 _ h2, rstrip0_fit _ _ h3a h3b,
        rstrip0_fit _ _ h4a h4b, rstrip0_fit _ _ h5a h5b, decU16_encU16 _ h6,
        decU32_encU32 _ h7, decU32_encU32 _ h8, decU8_encU8 _ h9,
        decU32_encU32 _ h10⟩

theorem cont_roundtrip (r : ContractRec) (h : ContOk r) :
    cont_unpack (cont_pack r) = r := by
  obtain ⟨h1, h2, h3, h4, h5, h6, h7, h8⟩ := h
  cases r with
  | mk flag rid cus car rent ret tot retd =>
      simp only at h1 h2 h3 h4 h5 h6 h7 h8
      simp only [cont_pack, cont_unpack]
      simp [readAt_append, readAt_here, length_fit, encU8_length, encU32_length,
        ContractRec.mk.injEq]
      exact ⟨decU8_encU8 _ h1, decU32_encU32 _ h2, decU32_encU32 _ h3,
        decU32_encU32 _ h4, decU32_encU32 _ h5, decU32_encU32 _ h6,
        decU32_encU32 _ h7, decU8_encU8 _ h8⟩

/-- C7: for each of the three record types, `unpack (pack v) = v` for
every representable value: numeric fields inside their unsigned
fixed-width ranges and text fields whose byte encoding fits the declared
width (maximum length included) without trailing zero bytes. -/
theorem c7_codec_roundtrip :
    (∀ r : CustomerRec, CustOk r → cust_unpack (cust_pack r) = r) ∧
    (∀ r : CarRec, CarOk r → cars_unpack (cars_pack r) = r) ∧
    (∀ r : ContractRec, ContOk r → cont_unpack (cont_pack r) = r) :=
  ⟨cust_roundtrip, cars_roundtrip, cont_roundtrip⟩

/-- C7 witness: concrete round trips, with the car's text fields at
exactly their maximum byte lengths. -/
theorem c7_codec_roundtrip_witness :
    cust_unpack (cust_pack custW) = custW ∧
    cars_unpack (cars_pack carW) = carW ∧
    cont_unpack (cont_pack contW) = contW :=
  ⟨c7_codec_roundtrip.1 custW (by decide),
    c7_codec_roundtrip.2.1 carW (by decide),
    c7_codec_roundtrip.2.2 contW (by decide)⟩

/-!
Claim C9 — the lookup probe cannot distinguish the tombstone sentinel
from a live key equal to `0xFFFFFFFF`.
-/

/-!
Claim C8 — endianness fallback on header read.
-/

theorem hdr_le_roundtrip (h : HeaderRec) (hok : HeaderOk h) :
    header_unpack_le (header_pack_le h) = h := by
  obtain ⟨h1, h2, h3, h4, h5, h6, h7, h8, h9, h10a, h10b, h11⟩ := hok
  cases h with
  | mk mg ver ed rsz cat uat nid ac dc fh slots =>
      simp only at h1 h2 h3 h4 h5 h6 h7 h8 h9 h10a h10b h11
      simp only [header_pack_le, header_unpack_le]
      simp [readAt_append, readAt_here, length_fit, encU8_length, encU16_length,
        encU32_length, encI32_length, HeaderRec.mk.injEq]
      exact ⟨fit_of_length_eq _ _ h1, decU8_encU8 _ h2, decU8_encU8 _ h3,
        decU16_encU16 _ h4, decU32_encU32 _ h5, decU32_encU32 _ h6,
        decU32_encU32 _ h7, decU32_encU32 _ h8, decU32_encU32 _ h9,
        decI32_encI32 _ h10a h10b, decU32_encU32 _ h11⟩

theorem hdr_be_roundtrip (h : HeaderRec) (hok : HeaderOk h) :
    header_unpack_be (header_pack_be h) = h := by
  obtain ⟨h1, h2, h3, h4, h5, h6, h7, h8, h9, h10a, h10b, h11⟩ := hok
  cases h with
  | mk mg ver ed rsz cat uat nid ac dc fh slots =>
      simp only at h1 h2 h3 h4 h5 h6 h7 h8 h9 h10a h10b h11
      simp only [header_pack_be, header_unpack_be]
      simp [readAt_append, readAt_here, length_fit, encU8_length, encU16be_length,
        encU32be_length, encI32be_length, HeaderRec.mk.injEq]
      exact ⟨fit_of_length_eq _ _ h1, decU8_encU8 _ h2, decU8_encU8 _ h3,
        decU16be_encU16be _ h4, decU32be_encU32be _ h5, decU32be_encU32be _ h6,
        decU32be_encU32be _ h7, decU32be_encU32be _ h8, decU32be_encU32be _ h9,
        decI32be_encI32be _ h10a h10b, decU32be_encU32be _ h11⟩

theorem le_endian_of_be_pack (h : HeaderRec) (hmg : h.magic.length = 4)
    (hed : h.endian < 256) :
    (header_unpack_le (header_pack_be h)).endian = h.endian := by
  cases h with
  | mk mg ver ed rsz cat uat nid ac dc fh slots =>
      simp only at hmg hed
      simp only [header_pack_be, header_unpack_le]
      simp [readAt_append, readAt_here, length_fit, encU8_length]
      exact decU8_encU8 _ hed

/-- C8 counterexample.  A well-formed CARS header written big-endian with
its stored endian flag set to 1 (`hdrBE`): the inspection tool's
`read_header` recovers it via the big-endian retry, but the engine's
`BinTable.open` performs no such retry — it decodes the header
little-endian unconditionally, misreads `record_size` 128 as 32768, and
rejects the file as a bad format.  So the claim that "the program" retries
big-endian when the flag disagrees is false for the engine's own header
read. -/
theorem c8_counterexample :
    (header_unpack_le (header_pack_be hdrBE)).endian = 1 ∧
    (header_unpack_le (header_pack_be hdrBE)).record_size = 32768 ∧
    header_unpack_be (header_pack_be hdrBE) = hdrBE ∧
    read_header (header_pack_be hdrBE) = hdrBE ∧
    hdrBE.record_size = 128 ∧
    bintable_open_existing hdrBE.magic 128 (header_pack_be hdrBE) =
      .error .badFormat := by
  decide

/-- C8 (amended): only `inspect_header.read_header` implements the
little-endian-first / big-endian-retry fallback — it recovers any
well-formed header packed in the endianness its flag names (retrying
exactly when the LE-decoded flag equals 1).  `BinTable.open` always
decodes little-endian: it accepts LE-written headers whose magic and
record size match, and (per `c8_counterexample`) rejects BE-written ones
without any retry. -/
theorem c8_amended_fallback (h : HeaderRec) (hok : HeaderOk h) :
    (h.endian = 1 → read_header (header_pack_be h) = h) ∧
    (h.endian ≠ 1 → read_header (header_pack_le h) = h) ∧
    bintable_open_existing h.magic h.record_size (header_pack_le h) = .ok h := by
  refine ⟨?_, ?_, ?_⟩
  · intro he
    have hc : (header_unpack_le (header_pack_be h)).endian = 1 := by
      rw [le_endian_of_be_pack h hok.1 hok.2.2.1]
      exact he
    simp only [read_header]
    rw [if_pos hc]
    exact hdr_be_roundtrip h hok
  · intro he
    have hle := hdr_le_roundtrip h hok
    simp only [read_header]
    rw [hle, if_neg he]
  · have hle := hdr_le_roundtrip h hok
    simp only [bintable_open_existing]
    rw [hle]
    simp

/-- C8 witness: the BE-written header `hdrBE` (flag 1) round trips
through the inspector's fallback; an LE-written CUST header `hdrLE`
(flag 0) is returned without retry and accepted by the engine. -/
theorem c8_amended_fallback_witness :
    read_header (header_pack_be hdrBE) = hdrBE ∧
    read_header (header_pack_le hdrLE) = hdrLE ∧
    bintable_open_existing hdrLE.magic hdrLE.record_size (header_pack_le hdrLE) =
      .ok hdrLE :=
  ⟨(c8_amended_fallback hdrBE (by decide)).1 (by decide),
    (c8_amended_fallback hdrLE (by decide)).2.1 (by decide),
    (c8_amended_fallback hdrLE (by decide)).2.2⟩

set_option maxRecDepth 8192 in
/-- C9: in the reachable customers-table state `custTomb1023` (1024 index
slots; keys 1 and 1023 added, key 1023 deleted) slot 1023 — the hash slot
of `0xFFFFFFFF` — holds a tombstone with `rec_index` 0, and the probe
treats it as a live entry for key `0xFFFFFFFF`: `read_record 0xFFFFFFFF`
returns the raw bytes of record index 0 (key 1's record) instead of
not-found, and `delete_record 0xFFFFFFFF` succeeds, decrementing
`active_count`, incrementing `deleted_count` and pushing record 0 onto
the free list. -/
theorem c9_tombstone_key_indistinguishable :
    hashKey TOMBSTONE_KEY 1024 = 1023 ∧
    (add_record custSpec (initTable 1024) 1 (recBytes 128 7)).2 = .ok 0 ∧
    (add_record custSpec custAdd1 1023 (recBytes 128 8)).2 = .ok 1 ∧
    (delete_record custSpec custAdd1x1023 1023).2 = .ok () ∧
    custTomb1023.index.getD 1023 slot0 = ⟨TOMBSTONE_KEY, 0⟩ ∧
    read_record custTomb1023 TOMBSTONE_KEY = some (custTomb1023.recs.getD 0 []) ∧
    (read_record custTomb1023 TOMBSTONE_KEY).isSome = true ∧
    (delete_record custSpec custTomb1023 TOMBSTONE_KEY).2 = .ok () ∧
    custTomb1023.active_count = 1 ∧
    (delete_record custSpec custTomb1023 TOMBSTONE_KEY).1.active_count = 0 ∧
    custTomb1023.deleted_count = 1 ∧
    (delete_record custSpec custTomb1023 TOMBSTONE_KEY).1.deleted_count = 2 ∧
    custTomb1023.free_head = 1 ∧
    (delete_record custSpec custTomb1023 TOMBSTONE_KEY).1.free_head = 0 := by
  decide

/-!
Claim C10 — `App.return_car` dies on an unbound local.
-/

/-- C10: whenever the two inputs of `return_car` parse, the contract
exists, is not yet returned, and the return date is not before the rental
date, the operation fails with the unbound-local error from line 384
(`car` is read before its only assignment at line 391) and neither the
contracts table nor the cars table is modified. -/
theorem c10_return_car_unbound (cst carst : TableState) (rid ret : Nat)
    (raw : List Nat)
    (h1 : read_record cst rid = some raw)
    (h2 : (cont_unpack raw).returned ≠ 1)
    (h3 : ¬ ret < (cont_unpack raw).rent_ymd) :
    return_car cst carst rid ret = ((cst, carst), .error .unboundLocalCar) := by
  unfold return_car
  rw [h1]
  simp [h2, h3]

/-- C10 witness: returning open contract 9 on a valid date fails with the
unbound-local error and changes nothing. -/
theorem c10_return_car_unbound_witness :
    return_car contTable9 (initTable 8) 9 20250102 =
      ((contTable9, initTable 8), .error .unboundLocalCar) :=
  c10_return_car_unbound contTable9 (initTable 8) 9 20250102 (cont_pack contW)
    (by decide) (by decide) (by decide)

end CarRent
